import Mathlib

/-!
Shallow embedding of the request-execution core of the `aqara-sdk-rust`
repository: signing (`src/auth.rs`), retry/backoff (`src/util/retry.rs`,
`src/client/blocking_client.rs`), response classification
(`src/client/blocking_client.rs::parse_response`, `src/error.rs`) and
diagnostic redaction (`src/util/redact.rs`).

Modelling conventions:
- Rust machine integers become `Nat`/`Int` with explicit saturation or
  modulus where the source relies on it (`u32`/`u64` saturating ops).
- `http::StatusCode` is a `Nat`; `is_success` is `200..=299` and
  `is_server_error` is `500..=599`, as in the `http` crate.
- Response bodies are byte sequences in the source; the classifier only
  observes them through three total functions (envelope decode, the
  `requestId` field probe of `extract_request_id`, and the redacted
  snippet), so `TransportResponseM` carries the images of those three
  observations as fields.
- Randomness (nonce, jitter) and the system clock are explicit parameters.
-/

namespace Aqara

/-! ## Status codes (the `http` crate's predicates) -/

/-- `StatusCode::is_success()` of the `http` crate: `200..=299`. -/
def statusIsSuccess (s : Nat) : Bool :=
  200 ≤ s && s ≤ 299

/-- `StatusCode::is_server_error()` of the `http` crate: `500..=599`. -/
def statusIsServerError (s : Nat) : Bool :=
  500 ≤ s && s ≤ 599

/-! ## Error model (`src/error.rs`)

`ApiError`'s fields are inlined into the `api` constructor. Boxed source
errors (`source` fields) carry no information the spec talks about and are
dropped. -/

/-- `ErrorKind` from `src/error.rs`. -/
inductive ErrorKindM where
  | auth
  | notFound
  | conflict
  | rateLimited
  | transport
  | decode
  | api
  | invalidConfig
deriving DecidableEq, Repr

/-- `Error` from `src/error.rs`. `retry_after` durations are millisecond
counts (`Nat`). -/
inductive ErrorM where
  | invalidConfig (message : String)
  | transport (message : String)
  | http (status : Nat) (requestId : Option String) (bodySnippet : Option String)
  | rateLimited (retryAfter : Option Nat) (requestId : Option String)
      (bodySnippet : Option String)
  | api (status : Option Nat) (code : Option Int) (message : Option String)
      (requestId : Option String) (bodySnippet : Option String)
  | decode (message : String) (status : Option Nat) (requestId : Option String)
      (bodySnippet : Option String)
deriving DecidableEq, Repr

/-- `status_to_kind` from `src/error.rs`. -/
def status_to_kind (status : Option Nat) : Option ErrorKindM :=
  match status with
  | none => none
  | some s =>
    if s = 401 || s = 403 then some .auth
    else if s = 404 then some .notFound
    else if s = 409 then some .conflict
    else if s = 429 then some .rateLimited
    else none

/-- `code_to_kind` from `src/error.rs`. -/
def code_to_kind (code : Int) : Option ErrorKindM :=
  if code = 106 || code = 107 || code = 108 || code = 109 || code = 403 then
    some .auth
  else if code = 429 then some .rateLimited
  else none

/-- `Error::kind` from `src/error.rs`. -/
def ErrorM.kind : ErrorM → ErrorKindM
  | .invalidConfig _ => .invalidConfig
  | .transport _ => .transport
  | .decode _ _ _ _ => .decode
  | .rateLimited _ _ _ => .rateLimited
  | .api status code _ _ _ =>
    ((code.bind code_to_kind).orElse fun _ => status_to_kind status).getD .api
  | .http status _ _ => (status_to_kind (some status)).getD .transport

/-- `Error::status` from `src/error.rs`. -/
def ErrorM.status : ErrorM → Option Nat
  | .http status _ _ => some status
  | .api status _ _ _ _ => status
  | .decode _ status _ _ => status
  | .rateLimited _ _ _ => some 429
  | .invalidConfig _ | .transport _ => none

/-- The Aqara business code carried by an error (`ApiError.code`); only the
`Api` variant carries one. -/
def ErrorM.businessCode : ErrorM → Option Int
  | .api _ code _ _ _ => code
  | _ => none

/-! ## Envelope and response model (`src/types/mod.rs`, `src/transport/mod.rs`) -/

/-- `AqaraEnvelope<Value>`: the `result` payload is opaque to the
classifier, so it is left abstract as an `Option Unit`-style flag is not
enough for equality statements; we keep it as an uninterpreted
`Option String` of its serialized form. -/
structure EnvelopeM where
  code : Int
  request_id : String
  message : String
  result : Option String
deriving DecidableEq, Repr

/-- A transport response as the classifier observes it.

The source's `TransportResponse` has raw header/body bytes; the classifier
reads them only through total functions, whose images are the fields here:
- `retryAfterHeader`: result of `retry::parse_retry_after(&resp.headers)`
  (milliseconds);
- `headerRequestId`: the first present of the `x-request-id` /
  `request-id` / `x-correlation-id` headers;
- `bodyEnvelope`: result of
  `serde_json::from_slice::<AqaraEnvelope<Value>>(&resp.body)`;
- `bodyRequestId`: the body-JSON `requestId`/`request_id` string probed by
  `extract_request_id` when no header id is present;
- `snippetText`: `redact::snippet_from_bytes(&resp.body, max_len)`. -/
structure TransportResponseM where
  status : Nat
  retryAfterHeader : Option Nat
  headerRequestId : Option String
  bodyEnvelope : Option EnvelopeM
  bodyRequestId : Option String
  snippetText : String
deriving DecidableEq, Repr

/-- `AqaraResponse<Value>` (status + envelope). -/
structure AqaraResponseM where
  status : Nat
  envelope : EnvelopeM
deriving DecidableEq, Repr

/-- `BodySnippetConfig` from `src/types/mod.rs`. -/
structure BodySnippetConfigM where
  enabled : Bool
  max_len : Nat
deriving DecidableEq, Repr

/-- `BlockingClient::snippet_if_enabled`. -/
def snippet_if_enabled (cfg : BodySnippetConfigM) (r : TransportResponseM) :
    Option String :=
  if cfg.enabled then some r.snippetText else none

/-- `extract_request_id` from `src/client/blocking_client.rs`: response
headers take precedence, else the body's `requestId`/`request_id` field. -/
def extract_request_id (r : TransportResponseM) : Option String :=
  match r.headerRequestId with
  | some v => some v
  | none => r.bodyRequestId

/-- `BlockingClient::parse_response` from `src/client/blocking_client.rs`. -/
def parse_response (cfg : BodySnippetConfigM) (resp : TransportResponseM) :
    Except ErrorM AqaraResponseM :=
  let request_id := extract_request_id resp
  let snippet := snippet_if_enabled cfg resp
  if resp.status = 429 then
    .error (.rateLimited resp.retryAfterHeader request_id snippet)
  else
    match resp.bodyEnvelope with
    | none =>
      if statusIsSuccess resp.status then
        .error (.decode "failed to decode response body" (some resp.status)
          request_id snippet)
      else
        .error (.http resp.status request_id snippet)
    | some envelope =>
      let request_id := some envelope.request_id
      if envelope.code = 429 then
        .error (.rateLimited resp.retryAfterHeader request_id snippet)
      else if envelope.code ≠ 0 then
        .error (.api (some resp.status) (some envelope.code)
          (some envelope.message) request_id snippet)
      else if ¬ statusIsSuccess resp.status then
        .error (.http resp.status request_id snippet)
      else
        .ok ⟨resp.status, envelope⟩

/-! ## Retry policy (`src/util/retry.rs`, `src/client/blocking_client.rs`) -/

/-- `u64::MAX`. -/
def u64Max : Nat := 2 ^ 64 - 1

/-- `u32::MAX`. -/
def u32Max : Nat := 2 ^ 32 - 1

/-- `u64::saturating_mul`. -/
def u64SatMul (a b : Nat) : Nat := min (a * b) u64Max

/-- `RetryConfig` from `src/types/mod.rs`; delays are kept directly as
their `Duration::as_millis` values clamped to `u64`
(`retry.rs::duration_to_millis_u64`), so fields are `Nat` milliseconds
`≤ u64Max` — the clamp is applied where the source applies it. -/
structure RetryConfigM where
  max_retries : Nat
  base_delay : Nat
  max_delay : Nat
deriving DecidableEq, Repr

/-- `duration_to_millis_u64` from `src/util/retry.rs`:
`min(d.as_millis(), u64::MAX) as u64`. -/
def duration_to_millis_u64 (d : Nat) : Nat := min d u64Max

/-- `compute_backoff_with_jitter` from `src/util/retry.rs`.

`rand::rng().random_range(0..=capped)` is modelled by the explicit sampler
`sample : Nat → Nat`, invoked at the inclusive upper bound `capped`; a
faithful sampler satisfies `sample c ≤ c`. -/
def compute_backoff_with_jitter (attempt : Nat) (retry : RetryConfigM)
    (sample : Nat → Nat) : Nat :=
  let base_ms := duration_to_millis_u64 retry.base_delay
  if base_ms = 0 then 0
  else
    let exp := min (attempt - 1) 30
    let factor := 2 ^ exp
    let exp_ms := u64SatMul base_ms factor
    let capped := min exp_ms (duration_to_millis_u64 retry.max_delay)
    if capped = 0 then 0 else sample capped

/-- `should_retry_status` from `src/client/blocking_client.rs`. -/
def should_retry_status (status : Nat) (idempotent : Bool) (attempt : Nat)
    (max_attempts : Nat) : Bool :=
  if ¬ idempotent || attempt ≥ max_attempts then false
  else status = 429 || statusIsServerError status

/-- `is_retryable_api_code` from `src/client/blocking_client.rs`. -/
def is_retryable_api_code (code : Int) : Bool :=
  code = 100 || code = 104 || code = 429 || code = 500 || code = 501

/-- `should_retry_error` from `src/client/blocking_client.rs`. -/
def should_retry_error (err : ErrorM) : Bool :=
  match err with
  | .rateLimited _ _ _ => true
  | .api _ code _ _ _ => (code.map is_retryable_api_code).getD false
  | _ => false

/-! ## The retry loop (`execute_with_retry`)

`BlockingTransport::send` is modelled by an oracle mapping the attempt
number to that attempt's outcome.  Sleeping between attempts does not
affect the returned value and is outside the model. -/

/-- `TransportErrorKind` from `src/transport/mod.rs`. -/
inductive TransportErrorKindM where
  | timeout
  | connect
  | other
deriving DecidableEq, Repr

/-- `TransportError::retryable` from `src/transport/mod.rs`. -/
def transportRetryable (k : TransportErrorKindM) : Bool :=
  match k with
  | .timeout | .connect => true
  | .other => false

/-- Outcome of one `transport.send(&req)` call. -/
inductive SendOutcome where
  | ok (resp : TransportResponseM)
  | err (kind : TransportErrorKindM) (message : String)
deriving DecidableEq, Repr

/-- The body of `execute_with_retry`'s `loop`, recursing on fuel.
`attempt` is the already-incremented attempt counter of the current
iteration; the result's second component is the number of transport sends
performed. Retrying always requires `attempt < max_attempts`, so fuel
`max_attempts` (from `execute_with_retry`) never runs out; the fuel-0
branches return the non-retried result, matching the source. -/
def executeGo (cfg : BodySnippetConfigM) (idempotent : Bool)
    (maxAttempts : Nat) (oracle : Nat → SendOutcome) :
    Nat → Nat → Except ErrorM AqaraResponseM × Nat
  | attempt, fuel =>
    match oracle attempt with
    | .ok resp =>
      if should_retry_status resp.status idempotent attempt maxAttempts then
        match fuel with
        | fuel' + 1 => executeGo cfg idempotent maxAttempts oracle (attempt + 1) fuel'
        | 0 => (parse_response cfg resp, attempt)
      else
        match parse_response cfg resp with
        | .ok v => (.ok v, attempt)
        | .error e =>
          if idempotent && decide (attempt < maxAttempts) && should_retry_error e then
            match fuel with
            | fuel' + 1 => executeGo cfg idempotent maxAttempts oracle (attempt + 1) fuel'
            | 0 => (.error e, attempt)
          else
            (.error e, attempt)
    | .err kind message =>
      if idempotent && decide (attempt < maxAttempts) && transportRetryable kind then
        match fuel with
        | fuel' + 1 => executeGo cfg idempotent maxAttempts oracle (attempt + 1) fuel'
        | 0 => (.error (.transport message), attempt)
      else
        (.error (.transport message), attempt)

/-- `BlockingClient::execute_with_retry` from `src/client/blocking_client.rs`.
`max_attempts = if idempotent { max_retries.saturating_add(1) } else { 1 }`
with `u32` saturation. -/
def execute_with_retry (retry : RetryConfigM) (cfg : BodySnippetConfigM)
    (idempotent : Bool) (oracle : Nat → SendOutcome) :
    Except ErrorM AqaraResponseM × Nat :=
  let maxAttempts := if idempotent then min (retry.max_retries + 1) u32Max else 1
  executeGo cfg idempotent maxAttempts oracle 1 maxAttempts

/-! ## MD5 (the `md5` crate's `compute`, i.e. RFC 1321)

Executable MD5 over byte lists, words as `Nat` masked to 32 bits. -/

/-- 32-bit mask. -/
def mask32 : Nat := 0xFFFFFFFF

/-- 32-bit complement (for values `< 2^32`). -/
def not32 (x : Nat) : Nat := mask32 ^^^ x

/-- 32-bit left rotation. -/
def rotl32 (x c : Nat) : Nat :=
  ((x <<< c) ||| (x >>> (32 - c))) &&& mask32

/-- RFC 1321 sine-derived round constants. -/
def md5K : List Nat :=
  [0xd76aa478, 0xe8c7b756, 0x242070db, 0xc1bdceee,
   0xf57c0faf, 0x4787c62a, 0xa8304613, 0xfd469501,
   0x698098d8, 0x8b44f7af, 0xffff5bb1, 0x895cd7be,
   0x6b901122, 0xfd987193, 0xa679438e, 0x49b40821,
   0xf61e2562, 0xc040b340, 0x265e5a51, 0xe9b6c7aa,
   0xd62f105d, 0x02441453, 0xd8a1e681, 0xe7d3fbc8,
   0x21e1cde6, 0xc33707d6, 0xf4d50d87, 0x455a14ed,
   0xa9e3e905, 0xfcefa3f8, 0x676f02d9, 0x8d2a4c8a,
   0xfffa3942, 0x8771f681, 0x6d9d6122, 0xfde5380c,
   0xa4beea44, 0x4bdecfa9, 0xf6bb4b60, 0xbebfbc70,
   0x289b7ec6, 0xeaa127fa, 0xd4ef3085, 0x04881d05,
   0xd9d4d039, 0xe6db99e5, 0x1fa27cf8, 0xc4ac5665,
   0xf4292244, 0x432aff97, 0xab9423a7, 0xfc93a039,
   0x655b59c3, 0x8f0ccc92, 0xffeff47d, 0x85845dd1,
   0x6fa87e4f, 0xfe2ce6e0, 0xa3014314, 0x4e0811a1,
   0xf7537e82, 0xbd3af235, 0x2ad7d2bb, 0xeb86d391]

/-- RFC 1321 per-round shift amounts. -/
def md5S : List Nat :=
  [7, 12, 17, 22, 7, 12, 17, 22, 7, 12, 17, 22, 7, 12, 17, 22,
   5, 9, 14, 20, 5, 9, 14, 20, 5, 9, 14, 20, 5, 9, 14, 20,
   4, 11, 16, 23, 4, 11, 16, 23, 4, 11, 16, 23, 4, 11, 16, 23,
   6, 10, 15, 21, 6, 10, 15, 21, 6, 10, 15, 21, 6, 10, 15, 21]

/-- One MD5 round on state `(a, b, c, d)` with message words `m`. -/
def md5Step (m : List Nat) (st : Nat × Nat × Nat × Nat) (i : Nat) :
    Nat × Nat × Nat × Nat :=
  let (a, b, c, d) := st
  let (f, g) :=
    if i < 16 then ((b &&& c) ||| (not32 b &&& d), i)
    else if i < 32 then ((d &&& b) ||| (not32 d &&& c), (5 * i + 1) % 16)
    else if i < 48 then (b ^^^ c ^^^ d, (3 * i + 5) % 16)
    else (c ^^^ (b ||| not32 d), (7 * i) % 16)
  let f' := (f + a + md5K.getD i 0 + m.getD g 0) &&& mask32
  (d, (b + rotl32 f' (md5S.getD i 0)) &&& mask32, b, c)

/-- Process one 64-byte chunk (as 16 little-endian words). -/
def md5Chunk (st : Nat × Nat × Nat × Nat) (m : List Nat) :
    Nat × Nat × Nat × Nat :=
  let (a0, b0, c0, d0) := st
  let (a, b, c, d) := (List.range 64).foldl (md5Step m) st
  ((a0 + a) &&& mask32, (b0 + b) &&& mask32, (c0 + c) &&& mask32,
   (d0 + d) &&& mask32)

/-- Group a byte list into 4-byte little-endian words. -/
def leWords : List Nat → List Nat
  | b0 :: b1 :: b2 :: b3 :: rest =>
    (b0 + 256 * b1 + 65536 * b2 + 16777216 * b3) :: leWords rest
  | _ => []

set_option linter.unusedVariables false in
/-- Split a byte list into 64-byte chunks. -/
def chunks64 (l : List Nat) : List (List Nat) :=
  if h : l = [] then []
  else
    l.take 64 :: chunks64 (l.drop 64)
termination_by l.length
decreasing_by
  have hpos : 0 < l.length := List.length_pos.mpr h
  simp only [List.length_drop]
  omega

/-- RFC 1321 padding: append `0x80`, zero-pad to 56 mod 64, then the
64-bit little-endian bit length. -/
def md5Pad (msg : List Nat) : List Nat :=
  let len := msg.length
  let zeros := (56 + 64 - (len + 1) % 64) % 64
  let bitLen := (len * 8) % 2 ^ 64
  msg ++ [0x80] ++ List.replicate zeros 0 ++
    ((List.range 8).map fun i => bitLen / 256 ^ i % 256)

/-- A 32-bit word as 4 little-endian bytes. -/
def wordBytesLE (w : Nat) : List Nat :=
  [w % 256, w / 256 % 256, w / 65536 % 256, w / 16777216 % 256]

/-- MD5 digest of a byte list: 16 bytes. -/
def md5Bytes (msg : List Nat) : List Nat :=
  let init : Nat × Nat × Nat × Nat :=
    (0x67452301, 0xefcdab89, 0x98badcfe, 0x10325476)
  let (a, b, c, d) := ((chunks64 (md5Pad msg)).map leWords).foldl md5Chunk init
  wordBytesLE a ++ wordBytesLE b ++ wordBytesLE c ++ wordBytesLE d

/-- Lowercase hex digit for a nibble. -/
def hexDigitChar (n : Nat) : Char :=
  match n with
  | 0 => '0' | 1 => '1' | 2 => '2' | 3 => '3' | 4 => '4'
  | 5 => '5' | 6 => '6' | 7 => '7' | 8 => '8' | 9 => '9'
  | 10 => 'a' | 11 => 'b' | 12 => 'c' | 13 => 'd' | 14 => 'e'
  | _ => 'f'

/-- A byte as two lowercase hex characters. -/
def byteHexChars (b : Nat) : List Char :=
  [hexDigitChar (b / 16), hexDigitChar (b % 16)]

/-- `format!("{digest:x}")`: lowercase hex of the 16 digest bytes. -/
def md5HexLower (msg : List Nat) : String :=
  String.mk ((md5Bytes msg).map byteHexChars).flatten

/-! ## Strings as bytes -/

/-- UTF-8 encoding of one scalar value. -/
def charUtf8 (c : Char) : List Nat :=
  let n := c.toNat
  if n < 0x80 then [n]
  else if n < 0x800 then
    [0xC0 ||| (n >>> 6), 0x80 ||| (n &&& 0x3F)]
  else if n < 0x10000 then
    [0xE0 ||| (n >>> 12), 0x80 ||| ((n >>> 6) &&& 0x3F), 0x80 ||| (n &&& 0x3F)]
  else
    [0xF0 ||| (n >>> 18), 0x80 ||| ((n >>> 12) &&& 0x3F),
     0x80 ||| ((n >>> 6) &&& 0x3F), 0x80 ||| (n &&& 0x3F)]

/-- UTF-8 bytes of a string (`str::as_bytes`). -/
def strUtf8 (s : String) : List Nat :=
  (s.toList.map charUtf8).flatten

/-- ASCII lowercase of one character. Models the case mapping applied by
`str::to_lowercase` / `to_ascii_lowercase`; agrees with Rust on all ASCII
input (credentials, nonces, timestamps and tokens are ASCII). -/
def charAsciiLower (c : Char) : Char :=
  if 65 ≤ c.toNat && c.toNat ≤ 90 then Char.ofNat (c.toNat + 32) else c

/-- ASCII lowercase of a string. -/
def strAsciiLower (s : String) : String :=
  String.mk (s.toList.map charAsciiLower)

/-! ## Signer (`src/auth.rs`)

`SecretString` is a transparent wrapper whose `expose()` returns the inner
string, so secrets are modelled as plain `String`s. The random nonce and
the system clock are explicit parameters. -/

/-- `Credentials` from `src/types/mod.rs`. -/
structure CredentialsM where
  app_id : String
  key_id : String
  app_key : String
deriving DecidableEq, Repr

/-- `SignatureParts` from `src/auth.rs`. -/
structure SignaturePartsM where
  nonce : String
  time_millis : String
  sign : String
deriving DecidableEq, Repr

/-- The signing string built by `generate_signature`'s `push_str`
sequence in `src/auth.rs` (before lowercasing). -/
def signing_string (credentials : CredentialsM)
    (access_token : Option String) (nonce time : String)
    (include_access_token : Bool) : String :=
  (if include_access_token then
    match access_token with
    | some token =>
      if token.isEmpty then "" else "Accesstoken=" ++ token ++ "&"
    | none => ""
  else "")
  ++ "Appid=" ++ credentials.app_id
  ++ "&Keyid=" ++ credentials.key_id
  ++ "&Nonce=" ++ nonce
  ++ "&Time=" ++ time
  ++ credentials.app_key

/-- `generate_signature` from `src/auth.rs`: build the signing string,
lowercase it, MD5 it, format as lowercase hex. -/
def generate_signature (credentials : CredentialsM)
    (access_token : Option String) (nonce time : String)
    (include_access_token : Bool) : String :=
  md5HexLower (strUtf8 (strAsciiLower
    (signing_string credentials access_token nonce time
      include_access_token)))

/-- The signature as the spec words it: the lowercase hex MD5 digest of
the lowercased concatenation `Accesstoken=<token>&` (present only if
`include_access_token` is true AND a token is present AND non-empty)
followed by `Appid=<app_id>&Keyid=<key_id>&Nonce=<nonce>&Time=<time>`
followed by the raw `app_key` with no separator. -/
def spec_signing_string (credentials : CredentialsM)
    (access_token : Option String) (nonce time : String)
    (include_access_token : Bool) : String :=
  (match access_token with
    | some token =>
      if include_access_token ∧ ¬ token.isEmpty then
        "Accesstoken=" ++ token ++ "&"
      else ""
    | none => "")
  ++ "Appid=" ++ credentials.app_id ++ "&Keyid="
  ++ credentials.key_id ++ "&Nonce=" ++ nonce ++ "&Time=" ++ time
  ++ credentials.app_key

/-- See `spec_signing_string`. -/
def signature_spec (credentials : CredentialsM)
    (access_token : Option String) (nonce time : String)
    (include_access_token : Bool) : String :=
  md5HexLower (strUtf8 (strAsciiLower
    (spec_signing_string credentials access_token nonce time
      include_access_token)))

/-- `sign_headers` from `src/auth.rs`. The random nonce is the `nonce`
parameter; `unix_timestamp_millis()` is the `clock` parameter (`none`
models a system clock before the Unix epoch, which the source surfaces as
a `Transport` error before the token check). -/
def sign_headers (credentials : CredentialsM) (access_token : Option String)
    (include_access_token : Bool) (nonce : String) (clock : Option String) :
    Except ErrorM SignaturePartsM :=
  match clock with
  | none => .error (.transport "system clock is before unix epoch")
  | some time_millis =>
    if include_access_token && access_token.isNone then
      .error (.invalidConfig "access token is required for this operation")
    else
      .ok ⟨nonce, time_millis,
        generate_signature credentials access_token nonce time_millis
          include_access_token⟩

/-! ## `call_value` (`src/client/blocking_client.rs`) -/

/-- Validity of one byte of a header value, per the `http` crate's
`HeaderValue::from_str`: visible ASCII or obs-text or horizontal tab. -/
def headerByteOk (b : Nat) : Bool :=
  b = 9 || (32 ≤ b && b ≠ 127)

/-- Whether `HeaderValue::from_str` accepts a string. -/
def headerValueOk (s : String) : Bool :=
  (strUtf8 s).all headerByteOk

/-- `insert_required_headers` from `src/client/blocking_client.rs`:
user-agent then lang, each failing with `InvalidConfig` when not a valid
header value (`Content-Type` is a static valid value). -/
def insert_required_headers (user_agent lang : String) :
    Except ErrorM Unit :=
  if ¬ headerValueOk user_agent then
    .error (.invalidConfig "invalid user-agent header value")
  else if ¬ headerValueOk lang then
    .error (.invalidConfig "invalid lang header value")
  else
    .ok ()

/-- `insert_signature_headers` from `src/client/blocking_client.rs`:
appid, keyid, nonce, time, sign, then conditionally the access token, each
through `insert_header_str`, which fails with `InvalidConfig` on an
invalid header value. -/
def insert_signature_headers (credentials : CredentialsM)
    (signature : SignaturePartsM) (access_token : Option String)
    (include_access_token : Bool) : Except ErrorM Unit :=
  if ¬ headerValueOk credentials.app_id then
    .error (.invalidConfig "invalid header value for appid")
  else if ¬ headerValueOk credentials.key_id then
    .error (.invalidConfig "invalid header value for keyid")
  else if ¬ headerValueOk signature.nonce then
    .error (.invalidConfig "invalid header value for nonce")
  else if ¬ headerValueOk signature.time_millis then
    .error (.invalidConfig "invalid header value for time")
  else if ¬ headerValueOk signature.sign then
    .error (.invalidConfig "invalid header value for sign")
  else
    match include_access_token, access_token with
    | true, some token =>
      if ¬ headerValueOk token then
        .error (.invalidConfig "invalid header value for accesstoken")
      else .ok ()
    | _, _ => .ok ()

/-- The per-client state `call_value` reads: credentials, the access-token
store's current contents, header strings, retry and snippet configuration. -/
structure ClientM where
  credentials : CredentialsM
  access_token : Option String
  user_agent : String
  lang : String
  retry : RetryConfigM
  body_snippet : BodySnippetConfigM
deriving DecidableEq, Repr

/-- `BlockingClient::call_value` from `src/client/blocking_client.rs`.

Body serialization (`serde_json::to_vec` of `{intent, data}`) cannot fail
for JSON-value payloads and is not modelled. The result's second component
counts transport sends (0 when the call fails before reaching
`execute_with_retry`). -/
def call_value (client : ClientM) (include_access_token idempotent : Bool)
    (nonce : String) (clock : Option String) (oracle : Nat → SendOutcome) :
    Except ErrorM AqaraResponseM × Nat :=
  match insert_required_headers client.user_agent client.lang with
  | .error e => (.error e, 0)
  | .ok _ =>
    match sign_headers client.credentials client.access_token
        include_access_token nonce clock with
    | .error e => (.error e, 0)
    | .ok signature =>
      match insert_signature_headers client.credentials signature
          client.access_token include_access_token with
      | .error e => (.error e, 0)
      | .ok _ =>
        execute_with_retry client.retry client.body_snippet idempotent oracle

/-! ## Redaction (`src/util/redact.rs`)

`serde_json::Value` is modelled by `Json`; numbers are kept as their
serialized token (redaction never inspects them). -/

/-- `serde_json::Value`. -/
inductive Json where
  | null
  | bool (b : Bool)
  | num (token : String)
  | str (s : String)
  | arr (elems : List Json)
  | obj (entries : List (String × Json))

/-- `is_sensitive_key` from `src/util/redact.rs`: trim and
ASCII-lowercase the key, then match the fixed list or a `token`
substring. -/
def trimAsciiLowerKey (key : String) : String :=
  let isWs (c : Char) : Bool := c = ' ' || c = '\t' || c = '\n' || c = '\r'
  let l := ((key.toList.dropWhile isWs).reverse.dropWhile isWs).reverse
  String.mk (l.map charAsciiLower)

/-- Does `pat` occur at the head of `l`? -/
def headMatches : List Char → List Char → Bool
  | [], _ => true
  | _ :: _, [] => false
  | p :: ps, c :: cs => p = c && headMatches ps cs

/-- Does `pat` occur as a contiguous substring of `l`? -/
def hasSublist (pat : List Char) : List Char → Bool
  | [] => pat.isEmpty
  | c :: cs => headMatches pat (c :: cs) || hasSublist pat cs

/-- `is_sensitive_key` from `src/util/redact.rs`. -/
def is_sensitive_key (key : String) : Bool :=
  let k := trimAsciiLowerKey key
  (k = "accesstoken" || k = "access_token" || k = "access-token"
    || k = "token" || k = "refresh_token" || k = "refreshtoken"
    || k = "appkey" || k = "app_key" || k = "password" || k = "secret")
  || hasSublist "token".toList k.toList

/-- The spec's wording of sensitivity: the key, trimmed and lower-cased,
contains `token` or equals one of the nine listed literals. -/
def sensitive_key_spec (key : String) : Bool :=
  let k := trimAsciiLowerKey key
  hasSublist "token".toList k.toList
  || decide (k ∈ ["accesstoken", "access_token", "access-token",
       "refresh_token", "refreshtoken", "appkey", "app_key", "password",
       "secret"])

mutual

/-- `redact_value_in_place` from `src/util/redact.rs` (functionally). -/
def redactValue : Json → Json
  | .obj entries => .obj (redactEntries entries)
  | .arr elems => .arr (redactElems elems)
  | v => v

/-- Redaction over array elements. -/
def redactElems : List Json → List Json
  | [] => []
  | v :: rest => redactValue v :: redactElems rest

/-- `redact_map_in_place` from `src/util/redact.rs`: replace values under
sensitive keys, recurse elsewhere. -/
def redactEntries : List (String × Json) → List (String × Json)
  | [] => []
  | (k, v) :: rest =>
    (k, if is_sensitive_key k then Json.str "[REDACTED]" else redactValue v)
      :: redactEntries rest

end

/-- `redact_json` from `src/util/redact.rs`. -/
def redact_json (v : Json) : Json := redactValue v

/-! ## JSON serialization (`serde_json::to_string` on `Value`) -/

/-- serde_json's escape of one string character (compact form). -/
def jsonEscapeChar (c : Char) : List Char :=
  if c = '"' then ['\\', '"']
  else if c = '\\' then ['\\', '\\']
  else if c.toNat = 8 then ['\\', 'b']
  else if c.toNat = 9 then ['\\', 't']
  else if c.toNat = 10 then ['\\', 'n']
  else if c.toNat = 12 then ['\\', 'f']
  else if c.toNat = 13 then ['\\', 'r']
  else if c.toNat < 32 then
    ['\\', 'u', '0', '0', hexDigitChar (c.toNat / 16), hexDigitChar (c.toNat % 16)]
  else [c]

/-- serde_json's rendering of a string literal. -/
def jsonQuote (s : String) : String :=
  String.mk ('"' :: (s.toList.map jsonEscapeChar).flatten ++ ['"'])

mutual

/-- `Value::to_string()`: compact serialization. -/
def renderJson : Json → String
  | .null => "null"
  | .bool true => "true"
  | .bool false => "false"
  | .num token => token
  | .str s => jsonQuote s
  | .arr elems => "[" ++ renderElems elems ++ "]"
  | .obj entries => "\x7b" ++ renderEntries entries ++ "\x7d"

/-- Comma-joined array elements. -/
def renderElems : List Json → String
  | [] => ""
  | [v] => renderJson v
  | v :: rest => renderJson v ++ "," ++ renderElems rest

/-- Comma-joined `"key":value` pairs. -/
def renderEntries : List (String × Json) → String
  | [] => ""
  | [(k, v)] => jsonQuote k ++ ":" ++ renderJson v
  | (k, v) :: rest => jsonQuote k ++ ":" ++ renderJson v ++ "," ++ renderEntries rest

end

/-! ## UTF-8 lossy decoding and byte-truncation (`snippet_from_bytes`) -/

/-- The Unicode replacement character. -/
def replChar : Char := Char.ofNat 0xFFFD

/-- Is a byte a UTF-8 continuation byte (`0x80..=0xBF`)? -/
def isCont (b : Nat) : Bool := 0x80 ≤ b && b ≤ 0xBF

/-- Validity of the first continuation byte after a given lead byte
(UTF-8 shortest-form and surrogate/range restrictions). -/
def contOkAfter (lead b1 : Nat) : Bool :=
  if lead = 0xE0 then 0xA0 ≤ b1 && b1 ≤ 0xBF
  else if lead = 0xED then 0x80 ≤ b1 && b1 ≤ 0x9F
  else if lead = 0xF0 then 0x90 ≤ b1 && b1 ≤ 0xBF
  else if lead = 0xF4 then 0x80 ≤ b1 && b1 ≤ 0x8F
  else isCont b1

/-- Worker for `utf8Lossy`, structurally recursive on a fuel that is at
least the number of remaining bytes (each step consumes at least one
byte, so fuel `l.length` never runs out). -/
def utf8LossyGo : Nat → List Nat → List Char
  | _, [] => []
  | 0, _ :: _ => []
  | fuel + 1, b :: rest =>
    if b < 0x80 then Char.ofNat b :: utf8LossyGo fuel rest
    else if b < 0xC2 then replChar :: utf8LossyGo fuel rest
    else if b < 0xE0 then
      match rest with
      | [] => [replChar]
      | b1 :: rest2 =>
        if isCont b1 then
          Char.ofNat (((b - 0xC0) <<< 6) + (b1 - 0x80)) :: utf8LossyGo fuel rest2
        else replChar :: utf8LossyGo fuel rest
    else if b < 0xF0 then
      match rest with
      | [] => [replChar]
      | b1 :: rest2 =>
        if contOkAfter b b1 then
          match rest2 with
          | [] => [replChar]
          | b2 :: rest3 =>
            if isCont b2 then
              Char.ofNat (((b - 0xE0) <<< 12) + ((b1 - 0x80) <<< 6)
                + (b2 - 0x80)) :: utf8LossyGo fuel rest3
            else replChar :: utf8LossyGo fuel rest2
        else replChar :: utf8LossyGo fuel rest
    else if b < 0xF5 then
      match rest with
      | [] => [replChar]
      | b1 :: rest2 =>
        if contOkAfter b b1 then
          match rest2 with
          | [] => [replChar]
          | b2 :: rest3 =>
            if isCont b2 then
              match rest3 with
              | [] => [replChar]
              | b3 :: rest4 =>
                if isCont b3 then
                  Char.ofNat (((b - 0xF0) <<< 18) + ((b1 - 0x80) <<< 12)
                    + ((b2 - 0x80) <<< 6) + (b3 - 0x80)) :: utf8LossyGo fuel rest4
                else replChar :: utf8LossyGo fuel rest3
            else replChar :: utf8LossyGo fuel rest2
        else replChar :: utf8LossyGo fuel rest
    else replChar :: utf8LossyGo fuel rest
/-- `String::from_utf8_lossy`: decode UTF-8, substituting U+FFFD for each
maximal invalid subpart. -/
def utf8Lossy (l : List Nat) : List Char := utf8LossyGo l.length l

/-- Byte length of a string (`String::len` in Rust). -/
def strByteLen (s : String) : Nat := (strUtf8 s).length

/-- The char-walk of `String::truncate(new_len)`: keep chars while their
bytes fit in the budget; `none` models the panic raised when `new_len`
falls strictly inside a character (not on a char boundary). -/
def truncListOpt : List Char → Nat → Option (List Char)
  | [], _ => some []
  | c :: cs, budget =>
    let k := (charUtf8 c).length
    if k ≤ budget then (truncListOpt cs (budget - k)).map (c :: ·)
    else if budget = 0 then some []
    else none

/-- `String::truncate` (no-op when `new_len ≥ len`; panics — `none` — on a
non-boundary `new_len`). -/
def stringTruncate (s : String) (new_len : Nat) : Option String :=
  if strByteLen s ≤ new_len then some s
  else (truncListOpt s.toList new_len).map String.mk

/-- `snippet_from_bytes` from `src/util/redact.rs`.

`serde_json::from_slice::<Value>` is the `parse` parameter (a full JSON
parser is outside the model; theorems instantiate it concretely). `none`
as a result models a panic (`String::truncate` off a char boundary). -/
def snippet_from_bytes (parse : List Nat → Option Json)
    (bytes : List Nat) (max_len : Nat) : Option String :=
  if max_len = 0 then some ""
  else
    let s :=
      match parse bytes with
      | some v => renderJson (redact_json v)
      | none => String.mk (utf8Lossy bytes)
    if strByteLen s > max_len then stringTruncate s max_len
    else some s

/-! # Theorems -/

/-! ## Helper lemmas: shape of the hex digest -/

/-- Is a character a lowercase hex digit? -/
def isLowerHexDigit (c : Char) : Bool :=
  ("0123456789abcdef".toList).contains c

lemma wordBytesLE_length (w : Nat) : (wordBytesLE w).length = 4 := rfl

lemma wordBytesLE_lt (w : Nat) : ∀ b ∈ wordBytesLE w, b < 256 := by
  intro b hb
  simp only [wordBytesLE, List.mem_cons, List.not_mem_nil, or_false] at hb
  rcases hb with h | h | h | h <;> subst h <;> exact Nat.mod_lt _ (by norm_num)

lemma md5Bytes_length (msg : List Nat) : (md5Bytes msg).length = 16 := by
  unfold md5Bytes
  rcases ((chunks64 (md5Pad msg)).map leWords).foldl md5Chunk
      (0x67452301, 0xefcdab89, 0x98badcfe, 0x10325476) with ⟨a, b, c, d⟩
  simp [wordBytesLE]

lemma md5Bytes_lt (msg : List Nat) : ∀ b ∈ md5Bytes msg, b < 256 := by
  unfold md5Bytes
  rcases ((chunks64 (md5Pad msg)).map leWords).foldl md5Chunk
      (0x67452301, 0xefcdab89, 0x98badcfe, 0x10325476) with ⟨a, b, c, d⟩
  intro x hx
  simp only [List.mem_append] at hx
  rcases hx with ((h | h) | h) | h <;> exact wordBytesLE_lt _ _ h

lemma hexDigitChar_isHex (n : Nat) (h : n < 16) :
    isLowerHexDigit (hexDigitChar n) = true := by
  interval_cases n <;> decide

lemma byteHexChars_isHex (b : Nat) (h : b < 256) :
    ∀ c ∈ byteHexChars b, isLowerHexDigit c = true := by
  intro c hc
  simp only [byteHexChars, List.mem_cons, List.not_mem_nil, or_false] at hc
  rcases hc with h' | h' <;> subst h'
  · exact hexDigitChar_isHex _ (by omega)
  · exact hexDigitChar_isHex _ (Nat.mod_lt _ (by norm_num))

lemma flatten_byteHex_len (l : List Nat) :
    ((l.map byteHexChars).flatten).length = 2 * l.length := by
  induction l with
  | nil => simp
  | cons b t ih => simp [byteHexChars, ih]; omega

lemma md5HexLower_length (msg : List Nat) : (md5HexLower msg).length = 32 := by
  show ((md5Bytes msg).map byteHexChars).flatten.length = 32
  rw [flatten_byteHex_len, md5Bytes_length]

lemma md5HexLower_hex (msg : List Nat) :
    (md5HexLower msg).toList.all isLowerHexDigit = true := by
  simp only [md5HexLower, List.all_eq_true]
  intro c hc
  have hc' : c ∈ ((md5Bytes msg).map byteHexChars).flatten := by
    simpa [String.toList] using hc
  rw [List.mem_flatten] at hc'
  obtain ⟨l, hl, hcl⟩ := hc'
  rw [List.mem_map] at hl
  obtain ⟨b, hb, rfl⟩ := hl
  exact byteHexChars_isHex b (md5Bytes_lt msg b hb) c hcl

/-! ## C1 -/

/-- C1: for every credentials, nonce, time string and optional access
token, `generate_signature` equals the lowercase hexadecimal MD5 digest of
the lowercased concatenation `Accesstoken=<token>&` (present only when
`include_access_token` is true AND a token is present AND non-empty)
followed by `Appid=<app_id>&Keyid=<key_id>&Nonce=<nonce>&Time=<time>`
followed by the raw `app_key` with no separator (the `signature_spec`
formula), and the output is a 32-character lowercase-hex string. Purity
and determinism are inherent: the same Lean function of the same
arguments. -/
theorem C1_generate_signature_spec (credentials : CredentialsM)
    (access_token : Option String) (nonce time : String)
    (include_access_token : Bool) :
    generate_signature credentials access_token nonce time
        include_access_token
      = signature_spec credentials access_token nonce time
          include_access_token
    ∧ (generate_signature credentials access_token nonce time
        include_access_token).length = 32
    ∧ (generate_signature credentials access_token nonce time
        include_access_token).toList.all isLowerHexDigit = true := by
  have hstr : signing_string credentials access_token nonce time
      include_access_token
      = spec_signing_string credentials access_token nonce time
          include_access_token := by
    cases include_access_token <;> cases access_token <;>
      simp only [signing_string, spec_signing_string] <;>
      first
        | rfl
        | (rename_i tok
           by_cases ht : tok.isEmpty <;> simp [ht])
  refine ⟨?_, ?_, ?_⟩
  · simp only [generate_signature, signature_spec, hstr]
  · exact md5HexLower_length _
  · exact md5HexLower_hex _

/-! ## C5 -/

/-- C5: for every response whose status is not 429 and whose body fails to
decode as the envelope, the classifier returns a `Decode` error carrying
the status when the HTTP status is a success status, and an `Http` error
carrying the status otherwise. -/
theorem C5_decode_failure_classification (cfg : BodySnippetConfigM)
    (resp : TransportResponseM) (h429 : resp.status ≠ 429)
    (henv : resp.bodyEnvelope = none) :
    parse_response cfg resp =
      (if statusIsSuccess resp.status then
        Except.error (ErrorM.decode "failed to decode response body"
          (some resp.status) (extract_request_id resp)
          (snippet_if_enabled cfg resp))
      else
        Except.error (ErrorM.http resp.status (extract_request_id resp)
          (snippet_if_enabled cfg resp))) := by
  by_cases hs : statusIsSuccess resp.status <;>
    simp [parse_response, h429, henv, hs]

/-- Witness for C5: an HTTP-200 response with an undecodable body yields a
`Decode` error carrying status 200. -/
theorem C5_decode_failure_classification_witness :
    parse_response ⟨true, 2048⟩ ⟨200, none, none, none, none, "oops"⟩ =
      Except.error (ErrorM.decode "failed to decode response body" (some 200)
        none (some "oops")) := by
  have h := C5_decode_failure_classification ⟨true, 2048⟩
    ⟨200, none, none, none, none, "oops"⟩ (by decide) rfl
  simpa [extract_request_id, snippet_if_enabled] using h

/-! ## C3 (corrected) -/

/-- C3 counterexample: a response with HTTP status 500 (≠ 429) whose body
decodes as an envelope with business code 0 does NOT yield success — the
classifier returns an `Http` error — contradicting the claim that
`code == 0` yields success for every non-429 status. -/
theorem C3_counterexample :
    parse_response ⟨false, 0⟩ ⟨500, none, none, some ⟨0, "rid", "ok", none⟩, none, "s"⟩
      = Except.error (ErrorM.http 500 (some "rid") none) := by
  rfl

/-- C3 (amended): for every response with status ≠ 429 whose body decodes
as the envelope, business code 429 yields `RateLimited`; any other nonzero
code yields `Api` carrying code, message, HTTP status, request id and
snippet; code 0 yields success with the envelope when the HTTP status is a
success status, and an `Http` error carrying the status otherwise. -/
theorem C3_decoded_envelope_classification (cfg : BodySnippetConfigM)
    (resp : TransportResponseM) (env : EnvelopeM)
    (h429 : resp.status ≠ 429) (henv : resp.bodyEnvelope = some env) :
    parse_response cfg resp =
      (if env.code = 429 then
        Except.error (ErrorM.rateLimited resp.retryAfterHeader
          (some env.request_id) (snippet_if_enabled cfg resp))
      else if env.code ≠ 0 then
        Except.error (ErrorM.api (some resp.status) (some env.code)
          (some env.message) (some env.request_id)
          (snippet_if_enabled cfg resp))
      else if statusIsSuccess resp.status then
        Except.ok ⟨resp.status, env⟩
      else
        Except.error (ErrorM.http resp.status (some env.request_id)
          (snippet_if_enabled cfg resp))) := by
  by_cases hc : env.code = 429 <;> by_cases hz : env.code = 0 <;>
    by_cases hs : statusIsSuccess resp.status <;>
    simp_all [parse_response, henv, h429]

/-- Witness for C3 (amended): a 200 response with a code-0 envelope
succeeds with the envelope. -/
theorem C3_decoded_envelope_classification_witness :
    parse_response ⟨true, 2048⟩
        ⟨200, none, none, some ⟨0, "rid", "ok", none⟩, none, "s"⟩
      = Except.ok ⟨200, ⟨0, "rid", "ok", none⟩⟩ := by
  have h := C3_decoded_envelope_classification ⟨true, 2048⟩
    ⟨200, none, none, some ⟨0, "rid", "ok", none⟩, none, "s"⟩
    ⟨0, "rid", "ok", none⟩ (by decide) rfl
  simpa using h

/-! ## C10 -/

/-- C10: every `RateLimited` error reports `status() = Some(429)`; and a
business-code-429 envelope produces the same `RateLimited` error whatever
the actual (non-429) HTTP status of the response was — the original HTTP
status is not retained in the error. -/
theorem C10_rate_limited_status (ra : Option Nat) (rid sn : Option String)
    (cfg : BodySnippetConfigM) (resp : TransportResponseM) (env : EnvelopeM)
    (s' : Nat) (h429 : resp.status ≠ 429) (h429' : s' ≠ 429)
    (henv : resp.bodyEnvelope = some env) (hcode : env.code = 429) :
    (ErrorM.rateLimited ra rid sn).status = some 429
    ∧ parse_response cfg resp =
        Except.error (ErrorM.rateLimited resp.retryAfterHeader
          (some env.request_id) (snippet_if_enabled cfg resp))
    ∧ parse_response cfg { resp with status := s' } =
        Except.error (ErrorM.rateLimited resp.retryAfterHeader
          (some env.request_id) (snippet_if_enabled cfg resp)) := by
  refine ⟨rfl, ?_, ?_⟩ <;>
    simp [parse_response, henv, h429, h429', hcode, snippet_if_enabled]

/-- Witness for C10: a 200 response with a code-429 envelope yields the
same `RateLimited` error as the 500-status variant of the same response,
and that error's `status()` is 429. -/
theorem C10_rate_limited_status_witness :
    (ErrorM.rateLimited (some 5) (some "rid") none).status = some 429
    ∧ parse_response ⟨false, 0⟩
        ⟨200, some 5, none, some ⟨429, "rid", "busy", none⟩, none, "s"⟩ =
        Except.error (ErrorM.rateLimited (some 5) (some "rid") none)
    ∧ parse_response ⟨false, 0⟩
        ⟨500, some 5, none, some ⟨429, "rid", "busy", none⟩, none, "s"⟩ =
        Except.error (ErrorM.rateLimited (some 5) (some "rid") none) := by
  have h := C10_rate_limited_status (some 5) (some "rid") none ⟨false, 0⟩
    ⟨200, some 5, none, some ⟨429, "rid", "busy", none⟩, none, "s"⟩
    ⟨429, "rid", "busy", none⟩ 500 (by decide) (by decide) rfl rfl
  simpa [snippet_if_enabled] using h

/-! ## C6 -/

/-- Helper: under a non-429 HTTP status, an `Api` error whose code is not
429 never classifies as `RateLimited`. -/
lemma api_kind_not_rateLimited (st : Nat) (c : Int) (m rid sn : Option String)
    (hst : st ≠ 429) (hc : c ≠ 429) :
    (ErrorM.api (some st) (some c) m rid sn).kind ≠ ErrorKindM.rateLimited := by
  simp only [ErrorM.kind, Option.bind_some, code_to_kind, status_to_kind]
  split_ifs <;> simp_all [Option.orElse, status_to_kind] <;> split_ifs <;>
    simp_all

/-- Helper: under a non-429 status, an `Http` error never classifies as
`RateLimited`. -/
lemma http_kind_not_rateLimited (st : Nat) (rid sn : Option String)
    (hst : st ≠ 429) :
    (ErrorM.http st rid sn).kind ≠ ErrorKindM.rateLimited := by
  simp only [ErrorM.kind, status_to_kind]
  split_ifs <;> simp_all

/-- C6: an error classified from a decoded envelope is retried (the guard
`idempotent && attempt < max_attempts && should_retry_error`) if and only
if the call is idempotent, attempts remain, and either the business code
is in the fixed set `{100, 104, 429, 500, 501}` or the error's classified
kind is `RateLimited`. -/
theorem C6_decoded_error_retry_iff (cfg : BodySnippetConfigM)
    (resp : TransportResponseM) (env : EnvelopeM) (e : ErrorM)
    (idempotent : Bool) (attempt maxAttempts : Nat)
    (henv : resp.bodyEnvelope = some env)
    (herr : parse_response cfg resp = .error e) :
    ((idempotent && decide (attempt < maxAttempts) && should_retry_error e)
        = true)
    ↔ (idempotent = true ∧ attempt < maxAttempts ∧
        ((∃ c, e.businessCode = some c ∧
            (c = 100 ∨ c = 104 ∨ c = 429 ∨ c = 500 ∨ c = 501))
          ∨ e.kind = ErrorKindM.rateLimited)) := by
  have hmain : (should_retry_error e = true)
      ↔ ((∃ c, e.businessCode = some c ∧
            (c = 100 ∨ c = 104 ∨ c = 429 ∨ c = 500 ∨ c = 501))
          ∨ e.kind = ErrorKindM.rateLimited) := by
    by_cases h429s : resp.status = 429
    · simp [parse_response, h429s] at herr
      subst herr
      simp [should_retry_error, ErrorM.kind, ErrorM.businessCode]
    · by_cases hc429 : env.code = 429
      · simp [parse_response, h429s, henv, hc429] at herr
        subst herr
        simp [should_retry_error, ErrorM.kind, ErrorM.businessCode]
      · by_cases hc0 : env.code = 0
        · by_cases hs : statusIsSuccess resp.status
          · simp [parse_response, h429s, henv, hc429, hc0, hs] at herr
          · simp [parse_response, h429s, henv, hc429, hc0, hs] at herr
            subst herr
            simp only [should_retry_error, ErrorM.businessCode, false_iff,
              not_or, Bool.false_eq_true]
            constructor
            · rintro ⟨c, hc, _⟩
              exact absurd hc (by simp)
            · exact http_kind_not_rateLimited _ _ _ h429s
        · simp [parse_response, h429s, henv, hc429, hc0] at herr
          subst herr
          simp only [should_retry_error, ErrorM.businessCode]
          constructor
          · intro h
            left
            refine ⟨env.code, rfl, ?_⟩
            simp [is_retryable_api_code] at h
            tauto
          · rintro (⟨c, hc, hset⟩ | hkind)
            · obtain rfl : env.code = c := by simpa using hc
              simp [is_retryable_api_code]
              tauto
            · exact absurd hkind
                (api_kind_not_rateLimited _ _ _ _ _ h429s hc429)
  simp only [Bool.and_eq_true, decide_eq_true_eq]
  constructor
  · rintro ⟨⟨hi, hlt⟩, hr⟩
    exact ⟨hi, hlt, hmain.mp hr⟩
  · rintro ⟨hi, hlt, hr⟩
    exact ⟨⟨hi, hlt⟩, hmain.mpr hr⟩

/-- Witness for C6: a 200 response with a code-100 envelope produces an
`Api` error that the engine retries when idempotent with attempts
remaining. -/
theorem C6_decoded_error_retry_iff_witness :
    ((true && decide (1 < 4) && should_retry_error
        (ErrorM.api (some 200) (some 100) (some "busy") (some "rid")
          (some "s"))) = true)
    ↔ (true = true ∧ 1 < 4 ∧
        ((∃ c, (ErrorM.api (some 200) (some 100) (some "busy") (some "rid")
              (some "s")).businessCode = some c ∧
            (c = 100 ∨ c = 104 ∨ c = 429 ∨ c = 500 ∨ c = 501))
          ∨ (ErrorM.api (some 200) (some 100) (some "busy") (some "rid")
              (some "s")).kind = ErrorKindM.rateLimited)) :=
  C6_decoded_error_retry_iff ⟨true, 2048⟩
    ⟨200, none, none, some ⟨100, "rid", "busy", none⟩, none, "s"⟩
    ⟨100, "rid", "busy", none⟩ _ true 1 4 rfl rfl

/-! ## C2 (corrected) -/

/-- Is the error the `Http` variant (Rust's
`matches!(err, Error::Http { .. })`, as the repository's own test asserts)? -/
def ErrorM.isHttp : ErrorM → Bool
  | .http _ _ _ => true
  | _ => false

/-- C2 counterexample: a non-idempotent call that receives one HTTP 500
response whose body decodes as an envelope with nonzero business code 7
makes exactly one attempt but surfaces an `Api` error (carrying status
500), not an `Http` error — refuting the claim that every 500 response
surfaces an `Http` error. -/
theorem C2_counterexample :
    execute_with_retry ⟨3, 200, 2000⟩ ⟨false, 0⟩ false
        (fun _ => .ok ⟨500, none, none, some ⟨7, "rid", "boom", none⟩, none, "s"⟩)
      = (Except.error (ErrorM.api (some 500) (some 7) (some "boom")
          (some "rid") none), 1)
    ∧ (ErrorM.api (some 500) (some 7) (some "boom") (some "rid")
        none).isHttp = false := by
  constructor <;> rfl

/-- C2 (amended): a call executed with `idempotent = false` performs
exactly one transport attempt and never retries, regardless of the kind
of failure; a non-idempotent call receiving one HTTP 500 response whose
body does not decode as the envelope surfaces an `Http` error with
status 500 (a body decoding as a nonzero-code envelope surfaces the
corresponding `Api`/`RateLimited` error instead). -/
theorem C2_non_idempotent_single_attempt (retry : RetryConfigM)
    (cfg : BodySnippetConfigM) (oracle : Nat → SendOutcome)
    (resp : TransportResponseM) (h1 : oracle 1 = .ok resp)
    (h500 : resp.status = 500) (henv : resp.bodyEnvelope = none) :
    execute_with_retry retry cfg false oracle
      = (Except.error (ErrorM.http 500 (extract_request_id resp)
          (snippet_if_enabled cfg resp)), 1)
    ∧ ∀ oracle' : Nat → SendOutcome,
        (execute_with_retry retry cfg false oracle').2 = 1 := by
  have hsrs : ∀ s a m, should_retry_status s false a m = false := by
    intro s a m
    simp [should_retry_status]
  constructor
  · have hp : parse_response cfg resp
        = .error (.http 500 (extract_request_id resp)
            (snippet_if_enabled cfg resp)) := by
      simp [parse_response, henv, h500, statusIsSuccess]
    simp only [execute_with_retry, Bool.false_eq_true, if_false, executeGo,
      h1]
    simp [hsrs, hp]
  · intro oracle'
    simp only [execute_with_retry, Bool.false_eq_true, if_false, executeGo]
    cases oracle' 1 with
    | ok r =>
      simp only [hsrs, Bool.false_eq_true, if_false]
      cases parse_response cfg r <;> simp
    | err k m => simp

/-- Witness for C2 (amended): the concrete 500-with-non-envelope-body run
surfaces `Http 500` in one attempt, and one more concrete non-idempotent
run (a timeout) also makes exactly one attempt. -/
theorem C2_non_idempotent_single_attempt_witness :
    execute_with_retry ⟨3, 200, 2000⟩ ⟨true, 2048⟩ false
        (fun _ => .ok ⟨500, none, none, none, none, "boom"⟩)
      = (Except.error (ErrorM.http 500 none (some "boom")), 1)
    ∧ (execute_with_retry ⟨3, 200, 2000⟩ ⟨true, 2048⟩ false
        (fun _ => .err .timeout "timed out")).2 = 1 := by
  have h := C2_non_idempotent_single_attempt ⟨3, 200, 2000⟩ ⟨true, 2048⟩
    (fun _ => .ok ⟨500, none, none, none, none, "boom"⟩)
    ⟨500, none, none, none, none, "boom"⟩ rfl rfl rfl
  exact ⟨by simpa [extract_request_id, snippet_if_enabled] using h.1,
    h.2 (fun _ => .err .timeout "timed out")⟩

/-! ## C4 -/

/-- C4: a call with `include_access_token = true` on a client whose
access-token store holds no token fails with an `InvalidConfig` error
(given a system clock not before the Unix epoch, i.e. `clock = some t`),
and performs zero transport sends. -/
theorem C4_missing_token_invalid_config (client : ClientM)
    (idempotent : Bool) (nonce t : String) (oracle : Nat → SendOutcome)
    (htok : client.access_token = none) :
    (call_value client true idempotent nonce (some t) oracle).2 = 0
    ∧ Except.mapError ErrorM.kind
        (call_value client true idempotent nonce (some t) oracle).1
      = Except.error ErrorKindM.invalidConfig := by
  by_cases hua : headerValueOk client.user_agent
  · by_cases hl : headerValueOk client.lang
    · simp [call_value, insert_required_headers, hua, hl, sign_headers,
        htok, Except.mapError, ErrorM.kind]
    · simp [call_value, insert_required_headers, hua, hl, Except.mapError,
        ErrorM.kind]
  · simp [call_value, insert_required_headers, hua, Except.mapError,
      ErrorM.kind]

/-- Witness for C4: a concrete tokenless client fails with
`InvalidConfig` and zero sends. -/
theorem C4_missing_token_invalid_config_witness :
    (call_value ⟨⟨"app", "key", "secret"⟩, none, "ua/1.0", "en",
        ⟨3, 200, 2000⟩, ⟨true, 2048⟩⟩ true true "nonce0" (some "1700000000000")
        (fun _ => .ok ⟨200, none, none, some ⟨0, "rid", "ok", none⟩, none, "s"⟩)).2
      = 0
    ∧ Except.mapError ErrorM.kind
        (call_value ⟨⟨"app", "key", "secret"⟩, none, "ua/1.0", "en",
          ⟨3, 200, 2000⟩, ⟨true, 2048⟩⟩ true true "nonce0"
          (some "1700000000000")
          (fun _ => .ok ⟨200, none, none, some ⟨0, "rid", "ok", none⟩, none, "s"⟩)).1
      = Except.error ErrorKindM.invalidConfig :=
  C4_missing_token_invalid_config _ true "nonce0" "1700000000000" _ rfl

/-! ## C7 -/

/-- The spec's backoff envelope
`min(base_delay * 2^min(attempt-1, 30), max_delay)` with `u64`-saturating
multiplication (all in milliseconds). -/
def backoff_envelope (attempt : Nat) (retry : RetryConfigM) : Nat :=
  min (u64SatMul (duration_to_millis_u64 retry.base_delay)
        (2 ^ min (attempt - 1) 30))
    (duration_to_millis_u64 retry.max_delay)

/-- C7: for every attempt `a ≥ 1` and every `RetryConfig`, for every
sampler bounded by its argument (modelling `random_range(0..=capped)`),
the computed backoff delay is at most the full-jitter envelope
`min(base_delay * 2^min(a-1, 30), max_delay)` (exponent clamped at 30,
multiplication saturating) and at most `max_delay`; conversely every
value in `[0, envelope]` is attained by some bounded sampler, so the
delay ranges over exactly that interval. -/
theorem C7_backoff_full_jitter (attempt : Nat) (retry : RetryConfigM)
    (sample : Nat → Nat) (_ha : 1 ≤ attempt)
    (hs : ∀ c, sample c ≤ c) :
    compute_backoff_with_jitter attempt retry sample
        ≤ backoff_envelope attempt retry
    ∧ compute_backoff_with_jitter attempt retry sample ≤ retry.max_delay
    ∧ ∀ j ≤ backoff_envelope attempt retry,
        ∃ sample' : Nat → Nat, (∀ c, sample' c ≤ c)
          ∧ compute_backoff_with_jitter attempt retry sample' = j := by
  have henv_le : backoff_envelope attempt retry
      ≤ duration_to_millis_u64 retry.max_delay := min_le_right _ _
  have hdm : duration_to_millis_u64 retry.max_delay ≤ retry.max_delay :=
    min_le_left _ _
  have hrun : ∀ s : Nat → Nat, (∀ c, s c ≤ c) →
      compute_backoff_with_jitter attempt retry s
        ≤ backoff_envelope attempt retry := by
    intro s hsb
    unfold compute_backoff_with_jitter backoff_envelope
    by_cases hb : duration_to_millis_u64 retry.base_delay = 0
    · simp [hb]
    · simp only [hb, if_false, ite_false]
      by_cases hc : min (u64SatMul (duration_to_millis_u64 retry.base_delay)
          (2 ^ min (attempt - 1) 30))
          (duration_to_millis_u64 retry.max_delay) = 0
      · simp [hc]
      · simp only [hc, if_false, ite_false]
        exact hsb _
  refine ⟨hrun sample hs, le_trans (le_trans (hrun sample hs) henv_le) hdm,
    ?_⟩
  intro j hj
  refine ⟨fun c => min j c, fun c => min_le_right _ _, ?_⟩
  by_cases hb : duration_to_millis_u64 retry.base_delay = 0
  · have henv0 : backoff_envelope attempt retry = 0 := by
      simp [backoff_envelope, u64SatMul, hb]
    simp [compute_backoff_with_jitter, hb]
    omega
  · by_cases hc : min (u64SatMul (duration_to_millis_u64 retry.base_delay)
        (2 ^ min (attempt - 1) 30))
        (duration_to_millis_u64 retry.max_delay) = 0
    · have henv0 : backoff_envelope attempt retry = 0 := by
        simpa [backoff_envelope] using hc
      simp [compute_backoff_with_jitter, hb, hc]
      omega
    · have henv : backoff_envelope attempt retry
          = min (u64SatMul (duration_to_millis_u64 retry.base_delay)
              (2 ^ min (attempt - 1) 30))
            (duration_to_millis_u64 retry.max_delay) := rfl
      rw [henv] at hj
      simp [compute_backoff_with_jitter, hb, hc]
      omega

/-- Witness for C7: attempt 3 with base 100ms / cap 250ms and the sampler
`min 40` yields a delay within the envelope and at most `max_delay`, and
every value in the envelope interval is attainable. -/
theorem C7_backoff_full_jitter_witness :
    compute_backoff_with_jitter 3 ⟨3, 100, 250⟩ (fun c => min 40 c)
        ≤ backoff_envelope 3 ⟨3, 100, 250⟩
    ∧ compute_backoff_with_jitter 3 ⟨3, 100, 250⟩ (fun c => min 40 c) ≤ 250
    ∧ ∀ j ≤ backoff_envelope 3 ⟨3, 100, 250⟩,
        ∃ sample' : Nat → Nat, (∀ c, sample' c ≤ c)
          ∧ compute_backoff_with_jitter 3 ⟨3, 100, 250⟩ sample' = j :=
  C7_backoff_full_jitter 3 ⟨3, 100, 250⟩ (fun c => min 40 c) (by decide)
    (fun c => min_le_right _ _)

end Aqara

namespace Aqara

/-! ## C8 -/

/-- Helper: the source's sensitive-key test agrees with the spec's
wording (substring `token`, or one of the nine listed literals). -/
lemma sensitive_key_eq_spec (key : String) :
    is_sensitive_key key = sensitive_key_spec key := by
  rw [Bool.eq_iff_iff]
  simp only [is_sensitive_key, sensitive_key_spec, Bool.or_eq_true,
    decide_eq_true_eq]
  generalize trimAsciiLowerKey key = k
  by_cases htok : k = "token"
  · subst htok
    have hsub : hasSublist "token".toList "token".toList = true := by decide
    simp [hsub]
    decide
  · simp only [htok, List.mem_cons, List.not_mem_nil, or_false]
    constructor
    · rintro (h | h)
      · tauto
      · left
        exact h
    · rintro (h | h)
      · right
        exact h
      · tauto

/-- Helper: object redaction is the per-entry map. -/
lemma redactEntries_eq_map (entries : List (String × Json)) :
    redactEntries entries = entries.map fun kv =>
      (kv.1, if sensitive_key_spec kv.1 then Json.str "[REDACTED]"
        else redactValue kv.2) := by
  induction entries with
  | nil => rfl
  | cons kv t ih =>
    obtain ⟨k, v⟩ := kv
    simp [redactEntries, ih, sensitive_key_eq_spec]

/-- Helper: array redaction is the element map. -/
lemma redactElems_eq_map (elems : List Json) :
    redactElems elems = elems.map redactValue := by
  induction elems with
  | nil => rfl
  | cons v t ih => simp [redactElems, ih]

/-- C8: redaction replaces the value of every object entry whose key is
sensitive in the spec's sense (trimmed, lower-cased key containing
`token` or equal to one of the listed literals) with `"[REDACTED]"`,
recurses into the values of all other entries and through arrays, keeping
keys and order; and the spec's concrete example redacts both secret
fields and keeps `"ok": "keep"`. -/
theorem C8_redaction :
    (∀ k, is_sensitive_key k = sensitive_key_spec k)
    ∧ (∀ entries, redactValue (Json.obj entries)
        = Json.obj (entries.map fun kv =>
            (kv.1, if sensitive_key_spec kv.1 then Json.str "[REDACTED]"
              else redactValue kv.2)))
    ∧ (∀ elems, redactValue (Json.arr elems)
        = Json.arr (elems.map redactValue))
    ∧ redact_json (Json.obj [("accessToken", Json.str "abc"),
        ("nested", Json.obj [("refresh_token", Json.str "xyz"),
          ("ok", Json.str "keep")])])
      = Json.obj [("accessToken", Json.str "[REDACTED]"),
          ("nested", Json.obj [("refresh_token", Json.str "[REDACTED]"),
            ("ok", Json.str "keep")])] := by
  refine ⟨sensitive_key_eq_spec, ?_, ?_, ?_⟩
  · intro entries
    rw [show redactValue (Json.obj entries) = Json.obj (redactEntries entries)
      from rfl]
    rw [redactEntries_eq_map]
  · intro elems
    rw [show redactValue (Json.arr elems) = Json.arr (redactElems elems)
      from rfl]
    rw [redactElems_eq_map]
  · rfl

/-! ## C9 (code bug) -/

/-- C9: `snippet_from_bytes` is NOT total. On the two-byte UTF-8 body
`é` (`0xC3 0xA9`, which does not parse as JSON — the parse oracle is
`none`) with `max_len = 1`, the truncation point falls inside the
character and `String::truncate` panics (modelled as `none`), while with
`max_len = 2` the function returns the intact snippet. -/
theorem C9_snippet_truncate_panics :
    snippet_from_bytes (fun _ => none) [0xC3, 0xA9] 1 = none
    ∧ snippet_from_bytes (fun _ => none) [0xC3, 0xA9] 2 = some "é" := by
  constructor <;> rfl

end Aqara
